import Mathlib

/-!
Verification development for the borderless-server job orchestrator.

The definitions below are shallow embeddings of the Go source:
  * `internal/services` build service (`BuildService`: `StartBuild`,
    `executeBuild`, `failBuild`, `CancelBuild`, `executeClaudeCLI`,
    `buildClaudeCLIArgs`);
  * `pkg/utils/folder.go` (`UnZipFile` in both of its variants, and
    `isPathSafe`);
  * `internal/handlers/chat_handler.go` (`StreamClaudeChat` line
    processing and post-run synchronisation phase).

External effects (database saves, SSE writes, process spawning) are made
explicit: each embedded operation returns the list of database writes,
emitted events, or log records that the corresponding Go code performs,
in program order.  Machine-level details that the claims do not touch
(file descriptors, timestamps as wall-clock values) are abstracted to
parameters.
-/

namespace Borderless

/-! ## Build data model (internal/models, part_003 lines 240-336) -/

/-- The BuildStatus type from the models package: pending, running, completed,
failed, cancelled. -/
inductive BuildStatus where
  | pending
  | running
  | completed
  | failed
  | cancelled
deriving DecidableEq, Repr

/-- The fields of `models.Build` that the orchestrator reads or writes.
Timestamps are abstract ticks (`Nat`). -/
structure Build where
  command : String
  workingDir : String
  status : BuildStatus
  output : String
  error : Option String
  exitCode : Option Int
  processID : Option Nat
  startedAt : Option Nat
  completedAt : Option Nat
deriving DecidableEq, Repr

/-- A durable build-log record: level and message
(`models.BuildLog`, metadata omitted). -/
abbrev LogWrite := String × String

/-! ## Go whitespace and `strings.Fields`

`executeBuild` splits the command with `strings.Fields`, which splits
around maximal runs of characters satisfying `unicode.IsSpace`. -/

/-- Go's `unicode.IsSpace`: the White_Space property. -/
def goIsSpace (c : Char) : Bool :=
  c == '\t' || c == '\n' || c == Char.ofNat 11 || c == Char.ofNat 12 ||
  c == '\r' || c == ' ' || c == Char.ofNat 0x85 || c == Char.ofNat 0xA0 ||
  c == Char.ofNat 0x1680 ||
  (0x2000 ≤ c.toNat && c.toNat ≤ 0x200A) ||
  c == Char.ofNat 0x2028 || c == Char.ofNat 0x2029 ||
  c == Char.ofNat 0x202F || c == Char.ofNat 0x205F || c == Char.ofNat 0x3000

/-- Accumulator-style splitter behind `goFields`: `cur` holds the
characters of the current field in reverse. -/
def goFieldsAux : List Char → List Char → List String
  | [], [] => []
  | [], cur => [String.mk cur.reverse]
  | c :: rest, cur =>
    if goIsSpace c then
      match cur with
      | [] => goFieldsAux rest []
      | _ :: _ => String.mk cur.reverse :: goFieldsAux rest []
    else goFieldsAux rest (c :: cur)

/-- Go's `strings.Fields`: the maximal runs of non-whitespace characters. -/
def goFields (s : String) : List String := goFieldsAux s.data []

/-- The argv computed by `executeBuild` (part_005 lines 108-119):
`parts := strings.Fields(build.Command)`, empty means the build fails,
otherwise `parts[0]` is the executable and `parts[1:]` its arguments,
passed directly to `exec.CommandContext` (no shell is involved). -/
def executeBuildArgv (command : String) : Option (String × List String) :=
  match goFields command with
  | [] => none
  | h :: t => some (h, t)

theorem goFieldsAux_all_space (l : List Char) (h : ∀ c ∈ l, goIsSpace c) :
    goFieldsAux l [] = [] := by
  induction l with
  | nil => rfl
  | cons c rest ih =>
    have hc : goIsSpace c := h c (by simp)
    simp only [goFieldsAux, hc, if_true]
    exact ih (fun d hd => h d (by simp [hd]))

theorem goFieldsAux_no_space (l cur : List Char)
    (hcur : ∀ c ∈ cur, goIsSpace c = false) :
    ∀ f ∈ goFieldsAux l cur, ∀ c ∈ f.data, goIsSpace c = false := by
  induction l generalizing cur with
  | nil =>
    cases cur with
    | nil => intro f hf; simp [goFieldsAux] at hf
    | cons a as =>
      intro f hf
      simp only [goFieldsAux, List.mem_singleton] at hf
      subst hf
      intro c hc
      simp only [String.data] at hc
      exact hcur c (List.mem_reverse.mp hc)
  | cons a rest ih =>
    intro f hf
    by_cases ha : goIsSpace a
    · simp only [goFieldsAux, ha, if_true] at hf
      cases cur with
      | nil => exact ih [] (by simp) f hf
      | cons b bs =>
        rcases List.mem_cons.mp hf with h1 | h2
        · subst h1
          intro c hc
          simp only [String.data] at hc
          exact hcur c (List.mem_reverse.mp hc)
        · exact ih [] (by simp) f h2
    · simp only [goFieldsAux, ha, if_false] at hf
      refine ih (a :: cur) ?_ f hf
      intro c hc
      rcases List.mem_cons.mp hc with h1 | h2
      · subst h1; simpa using ha
      · exact hcur c h2

/-! ## Build execution (part_005 lines 66-237, 370-521)

`executeBuild` and `executeClaudeCLI` run on their own goroutine.  Both
save the build record several times; `executeBuildSaves` lists those
`database.DB.Save` snapshots in program order.  The outcome of the
spawn attempt and of `cmd.Wait()` is a parameter. -/

/-- Outcome of the spawn/wait portion of `executeBuild`:
pipe creation may fail, `cmd.Start()` may fail, or the process starts
and `cmd.Wait()` later returns either success (`wait = none`) or an
error together with the exit code extracted from it
(`exec.ExitError.ExitCode()`, or the default 1 for other errors). -/
inductive SpawnPhase where
  | stdoutPipeFail (msg : String)
  | stderrPipeFail (msg : String)
  | startFail (msg : String)
  | started (pid : Nat) (wait : Option (Int × String)) (output : String)
deriving DecidableEq, Repr

/-- Model of `BuildService.failBuild` (part_005 lines 227-237): mark failed, set
the completion timestamp, the error message, and exit code 1. -/
def failSave (b : Build) (msg : String) (t : Nat) : Build :=
  { b with status := .failed, completedAt := some t,
           error := some msg, exitCode := some 1 }

/-- The final `database.DB.Save` of `executeBuild` (lines 197-223) and
`executeClaudeCLI` (lines 494-520): set the completion timestamp and the
captured output, then failed with the exit code and error message when
`cmd.Wait()` returned an error, completed with exit code 0 otherwise.
The current database row is not consulted: the save is computed from the
goroutine's in-memory record alone. -/
def finalizeSave (b : Build) (wait : Option (Int × String)) (output : String)
    (t : Nat) : Build :=
  let b := { b with completedAt := some t, output := output }
  match wait with
  | some (code, msg) =>
      { b with status := .failed, exitCode := some code, error := some msg }
  | none => { b with status := .completed, exitCode := some 0 }

/-- The sequence of build-record snapshots that `executeBuild`
(part_005 lines 95-224) saves to the database, in program order:
first the running snapshot (status running, started-at set — saved
before the command is even parsed), then the failure record for an
empty command or a pipe/start failure, or the PID snapshot followed by
the finalization record. -/
def executeBuildSaves (b : Build) (phase : SpawnPhase) (t₁ t₂ : Nat) :
    List Build :=
  let s₁ := { b with status := .running, startedAt := some t₁ }
  match goFields b.command with
  | [] => [s₁, failSave s₁ "Empty command" t₂]
  | _ :: _ =>
    match phase with
    | .stdoutPipeFail msg =>
        [s₁, failSave s₁ ("Failed to create stdout pipe: " ++ msg) t₂]
    | .stderrPipeFail msg =>
        [s₁, failSave s₁ ("Failed to create stderr pipe: " ++ msg) t₂]
    | .startFail msg =>
        [s₁, failSave s₁ ("Failed to start command: " ++ msg) t₂]
    | .started pid wait output =>
        let s₂ := { s₁ with processID := some pid }
        [s₁, s₂, finalizeSave s₂ wait output t₂]

/-- The externally visible steps of `BuildService.StartBuild`
(part_005 lines 66-92): create the working directory, persist the
pending record. -/
inductive StartBuildStep where
  | mkdirAll (dir : String)
  | createRecord (b : Build)
deriving DecidableEq, Repr

/-- The pending record `StartBuild` persists. -/
def startBuildRecord (command workingDir : String) : Build :=
  { command := command, workingDir := workingDir, status := .pending,
    output := "", error := none, exitCode := none, processID := none,
    startedAt := none, completedAt := none }

/-- Model of `BuildService.StartBuild` (part_005 lines 66-92): unconditionally
creates the working directory and persists a pending build record; the
command string is not validated here (execution happens asynchronously
in `executeBuild`). -/
def startBuild (command workingDir : String) :
    List StartBuildStep × Build :=
  let b := startBuildRecord command workingDir
  ([.mkdirAll workingDir, .createRecord b], b)

/-! ## The job registry and `CancelBuild` (part_005 lines 25-30, 240-268)

`activeBuilds` is the live-handle map guarded by `buildMutex`;
`cancelBuild` embeds `BuildService.CancelBuild`, and `finalizeBuild`
embeds the tail of the execution goroutine (delete the handle, then
save the final record — lines 192-223 and 489-520). -/

/-- In-memory registry plus the relevant database rows.  `active j`
says whether job `j` currently has a live process handle. -/
structure Registry where
  active : Nat → Bool
  db : Nat → Option Build
  logs : List (Nat × String × String)

/-- Result of `CancelBuild`. -/
inductive CancelResult where
  | ok
  | errNotRunning
  | errKillFailed
  | errDbNotFound
deriving DecidableEq, Repr

/-- Model of `BuildService.CancelBuild` (part_005 lines 240-268): look up the
live handle (absent means the NotRunning error "build not found or not
running"); kill the process (`killOk` is the outcome of
`cmd.Process.Kill()`); re-load the row, mark it cancelled with a
completion timestamp, save it, and append the warn-level log entry
"Build cancelled by user".  The live handle is NOT removed here. -/
def cancelBuild (st : Registry) (id : Nat) (killOk : Bool) (t : Nat) :
    Registry × CancelResult :=
  if st.active id = false then (st, .errNotRunning)
  else if killOk = false then (st, .errKillFailed)
  else
    match st.db id with
    | none => (st, .errDbNotFound)
    | some b =>
      let b' := { b with status := .cancelled, completedAt := some t }
      ({ st with
          db := fun j => if j = id then some b' else st.db j,
          logs := st.logs ++ [(id, "warn", "Build cancelled by user")] },
       .ok)

/-- Tail of the execution goroutine after `cmd.Wait()` returns
(part_005 lines 192-223 / 489-520): delete the job from `activeBuilds`,
then save the finalization record computed from the goroutine's
in-memory build `bMem`. -/
def finalizeBuild (st : Registry) (id : Nat) (bMem : Build)
    (wait : Option (Int × String)) (output : String) (t : Nat) : Registry :=
  { st with
      active := fun j => if j = id then false else st.active j,
      db := fun j => if j = id then some (finalizeSave bMem wait output t)
                     else st.db j }

/-! ## JSON objects as seen by the handlers

Both `executeClaudeCLI` and `StreamClaudeChat` call `json.Unmarshal`
into a `map[string]interface{}` and only ever read string-valued fields
("text", "session_id").  We model a parsed object as an association
list whose values are either strings or something else, and leave the
parser itself (`json.Unmarshal`) as an abstract parameter. -/

/-- A JSON value, to the precision the handlers look at. -/
inductive JVal where
  | jstr (s : String)
  | jother
deriving DecidableEq, Repr

/-- A parsed top-level JSON object. -/
abbrev JObj := List (String × JVal)

/-- The Go pattern `v, ok := obj[k].(string)`: the field's value when it
exists and is a string. -/
def jGetStr (o : JObj) (k : String) : Option String :=
  match o.find? (fun p => p.1 == k) with
  | some (_, .jstr s) => some s
  | _ => none

/-! ## StreamClaudeChat line processing
(chat_handler.go lines 1159-1215) -/

/-- SSE events emitted by `StreamClaudeChat`. -/
inductive ChatEvent where
  | claudeError (text : String)
  | claudeResponse (payload : JObj)
  | claudeOutput (text : String)
  | uploadError (msg : String)
  | keepalive
  | complete
deriving DecidableEq, Repr

/-- The mutable per-stream state of `StreamClaudeChat`:
the `assistantAccum` buffer. -/
structure ChatStream where
  accum : String
deriving DecidableEq, Repr

/-- One iteration of the `case l := <-outCh` branch of
`StreamClaudeChat` (chat_handler.go lines 1190-1215), for a line
`text` read from stderr (`isErr = true`) or stdout (`isErr = false`).
Returns the new stream state, the SSE events written, and the durable
log records created (`StreamClaudeChat` creates none: lines are only
forwarded and accumulated in memory).  Empty lines are skipped
entirely (`if l.text == "" { continue }`). -/
def chatProcessLine (parse : String → Option JObj) (isErr : Bool)
    (text : String) (st : ChatStream) :
    ChatStream × List ChatEvent × List LogWrite :=
  if text = "" then (st, [], [])
  else if isErr then (st, [.claudeError text], [])
  else
    match parse text with
    | some payload =>
      ({ accum := st.accum ++ ((jGetStr payload "text").getD "") },
       [.claudeResponse payload], [])
    | none =>
      ({ accum := st.accum ++ text ++ "\n" },
       [.claudeOutput text], [])

/-! ## executeClaudeCLI line logging (part_005 lines 447-483)

The build-service readers persist a `BuildLog` row for every line via
`logBuildEvent` (which does `database.DB.Create`). -/

/-- Log records created for one stdout line of the Claude CLI process
(part_005 lines 451-470): a "Claude response: ..." info record when the
line parses as JSON (plus a session-capture record when the object has
a string `session_id`), a plain info record otherwise. -/
def claudeStdoutLineLogs (parse : String → Option JObj) (line : String) :
    List LogWrite :=
  match parse line with
  | some response =>
    ("info", "Claude response: " ++ line) ::
      (match jGetStr response "session_id" with
       | some sid => [("info", "Session ID captured: " ++ sid)]
       | none => [])
  | none => [("info", line)]

/-- Log records created for one stderr line (part_005 lines 475-482):
always one error-level record. -/
def claudeStderrLineLogs (line : String) : List LogWrite :=
  [("error", line)]

/-! ## StreamClaudeChat post-run phase (chat_handler.go lines 1216-1260)

After both readers drain and `cmd.Wait()` returns, the handler persists
the accumulated assistant message, git-commits best-effort, zips the
working directory and uploads it, emitting `upload_error` on zip or
upload failure, and finally emits `complete`.  The phase touches no
build/job status; its only database writes are the assistant chat
message and (on first successful upload) the storage location's
network path. -/

/-- A persisted chat message (sender, text). -/
structure ChatMsg where
  sender : String
  text : String
deriving DecidableEq, Repr

/-- The post-run phase, as a function of the accumulated response and
the outcomes of `utils.ZipFolder` and `storage.UploadFile`.  Returns
the chat messages table, the storage location's network path, and the
SSE events emitted, in order. -/
def postRunPhase (messages : List ChatMsg) (networkPath : Option String)
    (assistantAccum : String) (zipOk uploadOk : Bool)
    (composedPath : String) :
    List ChatMsg × Option String × List ChatEvent :=
  let messages :=
    if assistantAccum = "" then messages
    else messages ++ [{ sender := "assistant", text := assistantAccum }]
  if zipOk = false then
    (messages, networkPath, [.uploadError "zip failed", .complete])
  else if uploadOk = false then
    (messages, networkPath, [.uploadError "upload failed", .complete])
  else
    let networkPath :=
      if networkPath = none ∨ networkPath = some "" then some composedPath
      else networkPath
    (messages, networkPath, [.complete])

/-! ## buildClaudeCLIArgs (part_005 lines 524-598)

The pure argument builder.  `hasMCP`/`mcpPath` stand for the results of
`s.hasMCPServers()` and `s.getMCPConfigPath()` (both read the local
`~/.claude.json`; their results are inputs here). -/

/-- The `services.ToolsSettings` structure. -/
structure ToolsSettings where
  allowedTools : List String := []
  disallowedTools : List String := []
  skipPermissions : Bool := false
deriving DecidableEq, Repr

/-- The fields of `services.ClaudeCLIOptions` that `buildClaudeCLIArgs`
reads. -/
structure ClaudeCLIOptions where
  sessionID : String := ""
  resume : Bool := false
  toolsSettings : Option ToolsSettings := none
  permissionMode : String := ""
  model : String := ""
deriving DecidableEq, Repr

/-- The plan-mode tool allow-list (part_005 line 584). -/
def planModeTools : List String :=
  ["Read", "Task", "exit_plan_mode", "TodoRead", "TodoWrite"]

/-- Model of `BuildService.buildClaudeCLIArgs` (part_005 lines 524-598),
translated statement by statement; the `for` loops over tool lists
become `foldl`. -/
def buildClaudeCLIArgs (command : String) (o : ClaudeCLIOptions)
    (hasMCP : Bool) (mcpPath : String) : List String :=
  let args : List String := []
  let args := if o.resume && o.sessionID != "" then
    args ++ ["--resume", o.sessionID] else args
  let args := args ++ ["--output-format", "stream-json", "--verbose"]
  let args := if hasMCP && mcpPath != "" then
    args ++ ["--mcp-config", mcpPath] else args
  let args := if !o.resume then
    args ++ ["--model", if o.model == "" then "sonnet" else o.model]
    else args
  let args := if o.permissionMode != "" && o.permissionMode != "default" then
    args ++ ["--permission-mode", o.permissionMode] else args
  let args := match o.toolsSettings with
    | none => args
    | some settings =>
      if settings.skipPermissions && o.permissionMode != "plan" then
        args ++ ["--dangerously-skip-permissions"]
      else
        let args := settings.allowedTools.foldl
          (fun a tool => a ++ ["--allowedTools", tool]) args
        let args := settings.disallowedTools.foldl
          (fun a tool => a ++ ["--disallowedTools", tool]) args
        if o.permissionMode == "plan" then
          planModeTools.foldl
            (fun a tool => a ++ ["--allowedTools", tool]) args
        else args
  if command != "" then args ++ ["--print", "--", command] else args

/-! Spec-side decomposition of the argument vector, following the words
of the specification (§4.2 `buildArgs`); `buildClaudeCLIArgs_spec`
below proves the source function equal to this decomposition. -/

/-- Spec: "if resuming, prepend a resume flag with the prior
tool-session id". -/
def specResumeArgs (o : ClaudeCLIOptions) : List String :=
  if o.resume && o.sessionID != "" then ["--resume", o.sessionID] else []

/-- Spec: "always request structured/verbose output". -/
def specOutputArgs : List String :=
  ["--output-format", "stream-json", "--verbose"]

/-- Spec: "if a local tool-configuration file advertises auxiliary
integrations, append a flag pointing at it". -/
def specMcpArgs (hasMCP : Bool) (mcpPath : String) : List String :=
  if hasMCP && mcpPath != "" then ["--mcp-config", mcpPath] else []

/-- Spec: "for a new (non-resumed) turn, append a model-selection flag
defaulting to a fixed model name when unset". -/
def specModelArgs (o : ClaudeCLIOptions) : List String :=
  if o.resume then []
  else ["--model", if o.model == "" then "sonnet" else o.model]

/-- Spec: "if a non-default permission mode is requested, append it". -/
def specPermissionArgs (o : ClaudeCLIOptions) : List String :=
  if o.permissionMode != "" && o.permissionMode != "default" then
    ["--permission-mode", o.permissionMode]
  else []

/-- Alternating `flag tool` pairs for a tool list. -/
def toolPairArgs (flag : String) : List String → List String
  | [] => []
  | t :: ts => flag :: t :: toolPairArgs flag ts

/-- The explicit allow/deny tool flags, plus the fixed minimal
allow-list injected under plan mode. -/
def specToolListArgs (o : ClaudeCLIOptions) (s : ToolsSettings) :
    List String :=
  toolPairArgs "--allowedTools" s.allowedTools ++
  toolPairArgs "--disallowedTools" s.disallowedTools ++
  (if o.permissionMode == "plan" then
    toolPairArgs "--allowedTools" planModeTools
  else [])

/-- Spec: the skip-prompts flag is mutually exclusive with the explicit
allow/deny tool flags — either the lone skip flag, or only tool-list
flags. -/
def specToolsArgs (o : ClaudeCLIOptions) : List String :=
  match o.toolsSettings with
  | none => []
  | some s =>
    if s.skipPermissions && o.permissionMode != "plan" then
      ["--dangerously-skip-permissions"]
    else specToolListArgs o s

/-- Spec: "the literal user input is appended last as the payload
argument". -/
def specPayloadArgs (command : String) : List String :=
  if command != "" then ["--print", "--", command] else []

theorem foldl_toolPairArgs (flag : String) (ts : List String) :
    ∀ a : List String,
      ts.foldl (fun a tool => a ++ [flag, tool]) a = a ++ toolPairArgs flag ts := by
  induction ts with
  | nil => intro a; simp [toolPairArgs]
  | cons t ts ih =>
    intro a
    simp only [List.foldl_cons, toolPairArgs, ih]
    simp

/-! ## Zip extraction and the path-traversal guard
(pkg/utils/folder.go, both variants of `UnZipFile`)

The repository snapshot carries two variants of `UnZipFile`:
the first (folder.go lines 31-91) normalises the entry name, joins it
onto the destination, lexically resolves it (`filepath.Join` +
`filepath.Abs`) and compares against the destination; the second
(lines 249-297) concatenates the raw name and calls `isPathSafe`
(lines 299-313), a plain string comparison on the UNresolved path.
In both variants the rejection branch is `return err`, where `err`
still holds the nil result of the preceding call. -/

/-- Model of a string starting-with test: the characters of `p` start the
characters of `s` (Go's `strings.HasPrefix`, and the
`target[:len(absDest)] == absDest` comparison). -/
def listStartsWith : List Char → List Char → Bool
  | [], _ => true
  | _ :: _, [] => false
  | a :: as, b :: bs => a == b && listStartsWith as bs

/-- Go's starting-with comparison on strings: does `s` start with `p`.
(This is what the guards in both `UnZipFile` variants compute.) -/
def strStartsWith (p s : String) : Bool := listStartsWith p.data s.data

/-- Split a path into its `/`-separated components
(possibly empty ones). -/
def pathCompsAux : List Char → List Char → List String
  | [], cur => [String.mk cur.reverse]
  | c :: rest, cur =>
    if c = '/' then String.mk cur.reverse :: pathCompsAux rest []
    else pathCompsAux rest (c :: cur)

/-- One step of lexical path cleaning: push a component onto the
(reversed) output stack, resolving `..`. -/
def cleanStep (rooted : Bool) (acc : List String) (c : String) :
    List String :=
  if c = ".." then
    match acc with
    | [] => if rooted then [] else [".."]
    | top :: rest => if top = ".." then ".." :: acc else rest
  else c :: acc

/-- Go's `path/filepath.Clean` on Unix (lexical resolution of `.` /
`..` / doubled separators).  `filepath.Join(a, b) = Clean(a + "/" + b)`
and, for an absolute path, `filepath.Abs = Clean`; this is how the
operating system will resolve the path when no symlinks intervene. -/
def goPathClean (p : String) : String :=
  if p = "" then "."
  else
    let rooted := strStartsWith "/" p
    let comps := (pathCompsAux p.data []).filter
      (fun c => c != "" && c != ".")
    let stack := comps.foldl (cleanStep rooted) []
    let body := String.intercalate "/" stack.reverse
    if rooted then "/" ++ body
    else if body = "" then "." else body

/-- One archive entry: its header name and whether it is a directory. -/
structure ZipEntry where
  name : String
  isDir : Bool
deriving DecidableEq, Repr

/-- First variant of `UnZipFile` (folder.go lines 31-91), run over the
entry list with `destAbs = filepath.Abs(destPath)` (`destPath` is
created and absolute-resolved before the loop).  Returns the filesystem
paths created (files and directories, as passed to
`os.OpenFile`/`os.MkdirAll`) and the function's return value.  The
ZipSlip branch (lines 54-57) is `return err` — `err` is the nil result
of the `filepath.Abs` call just above, so the extraction stops with a
nil error. -/
def unZipFileV1 (destAbs : String) : List ZipEntry →
    List String × Option String
  | [] => ([], none)
  | e :: rest =>
    let name := String.mk (e.name.data.map
      (fun c => if c = '\\' then '/' else c))
    let targetAbs := goPathClean (destAbs ++ "/" ++ name)
    if !(strStartsWith (destAbs ++ "/") targetAbs || targetAbs == destAbs)
    then
      ([], none)
    else
      let (ws, r) := unZipFileV1 destAbs rest
      (targetAbs :: ws, r)

/-- Model of `isPathSafe` (folder.go lines 299-313): requires the destination to
exist (`os.Stat`), appends a separator to `dest` unless it already ends
in one, and then compares `target[:len(absDest)] == absDest` — a raw
byte comparison on the UNresolved target string.  (Go indexes
`dest[len(dest)-1]`, so `dest` is assumed non-empty; the `getLast?`
fallback covers totality only.) -/
def isPathSafe (destExists : Bool) (dest target : String) : Bool :=
  if !destExists then false
  else
    let absDest := match dest.data.getLast? with
      | some c => if c = '/' then dest else dest ++ "/"
      | none => dest ++ "/"
    strStartsWith absDest target

/-- Second variant of `UnZipFile` (folder.go lines 249-297): for each
entry, `fpath := destPath + "/" + file.Name` (no normalisation), guard
with `isPathSafe`, then create the file or directory at `fpath`.
The guard's failure branch is `return err` — `err` is the nil result
of `zip.OpenReader`, so again a nil error. -/
def unZipFileV2 (destExists : Bool) (destPath : String) : List ZipEntry →
    List String × Option String
  | [] => ([], none)
  | e :: rest =>
    let fpath := destPath ++ "/" ++ e.name
    if !(isPathSafe destExists destPath fpath) then
      ([], none)
    else
      let (ws, r) := unZipFileV2 destExists destPath rest
      (fpath :: ws, r)

/-! ## Concrete fixtures used by the theorems below -/

/-- A running build, as the execution goroutine holds it in memory. -/
def demoRunningBuild : Build :=
  { command := "sleep 100", workingDir := "/w", status := .running,
    output := "", error := none, exitCode := none, processID := some 42,
    startedAt := some 1, completedAt := none }

/-- A registry with job 1 live and persisted as running. -/
def demoRegistry : Registry :=
  { active := fun j => j == 1,
    db := fun j => if j = 1 then some demoRunningBuild else none,
    logs := [] }

/-- A parser that accepts nothing (one concrete stand-in for
`json.Unmarshal` at inputs it rejects). -/
def parseNone : String → Option JObj := fun _ => none

/-! ## C9 — whitespace splitting of shell commands -/

/-- C9: for every shell-command job, `executeBuild` splits the command
string on whitespace into an argument vector — first field the
executable, remaining fields its arguments — exactly `strings.Fields`,
with no shell interpretation (the argv is the fields themselves; no
`sh -c` is inserted and no field contains whitespace), so a quoted
substring with embedded spaces is split apart, as the concrete
`echo "hello world"` example shows. -/
theorem executeBuildArgv_splits_on_whitespace (command : String) :
    (∀ name args, executeBuildArgv command = some (name, args) →
      name :: args = goFields command ∧
      ∀ a ∈ name :: args, ∀ c ∈ a.data, goIsSpace c = false) ∧
    executeBuildArgv "echo \"hello world\"" =
      some ("echo", ["\"hello", "world\""]) := by
  constructor
  · intro name args h
    have heq : name :: args = goFields command := by
      unfold executeBuildArgv at h
      cases hf : goFields command with
      | nil => rw [hf] at h; exact absurd h (by simp)
      | cons x xs =>
        rw [hf] at h
        simp only [Option.some.injEq, Prod.mk.injEq] at h
        rw [h.1, h.2]
    refine ⟨heq, ?_⟩
    intro a ha
    have : a ∈ goFieldsAux command.data [] := by
      rw [← goFields, ← heq]; exact ha
    exact goFieldsAux_no_space command.data [] (by simp) a this
  · decide

/-- Witness for C9 at the quoted-command example. -/
theorem executeBuildArgv_splits_on_whitespace_witness :
    "echo" :: ["\"hello", "world\""] = goFields "echo \"hello world\"" ∧
    ∀ a ∈ "echo" :: ["\"hello", "world\""], ∀ c ∈ a.data,
      goIsSpace c = false :=
  (executeBuildArgv_splits_on_whitespace "echo \"hello world\"").1
    "echo" ["\"hello", "world\""] (by decide)

/-! ## C10 — empty or all-whitespace commands -/

/-- C10: for every command that is empty or all whitespace, `StartBuild`
does not reject the request — it still creates the working directory
and persists a pending build record — and the asynchronous
`executeBuild` then marks the job failed with error message
"Empty command", exit code 1, and a completion timestamp. -/
theorem emptyCommand_accepted_then_failed (command workingDir : String)
    (phase : SpawnPhase) (t₁ t₂ : Nat)
    (h : ∀ c ∈ command.data, goIsSpace c) :
    goFields command = [] ∧
    (startBuild command workingDir).1 =
      [.mkdirAll workingDir,
       .createRecord (startBuildRecord command workingDir)] ∧
    (startBuildRecord command workingDir).status = .pending ∧
    executeBuildSaves (startBuildRecord command workingDir) phase t₁ t₂ =
      [{ startBuildRecord command workingDir with
           status := .running, startedAt := some t₁ },
       { command := command, workingDir := workingDir, status := .failed,
         output := "", error := some "Empty command", exitCode := some 1,
         processID := none, startedAt := some t₁,
         completedAt := some t₂ }] := by
  have hf : goFields command = [] := goFieldsAux_all_space command.data h
  refine ⟨hf, rfl, rfl, ?_⟩
  unfold executeBuildSaves
  rw [show (startBuildRecord command workingDir).command = command from rfl]
  rw [hf]
  simp [failSave, startBuildRecord]

/-- Witness for C10 at the all-whitespace command `"   "`. -/
theorem emptyCommand_accepted_then_failed_witness :
    goFields "   " = [] ∧
    (startBuild "   " "/w").1 =
      [.mkdirAll "/w", .createRecord (startBuildRecord "   " "/w")] ∧
    (startBuildRecord "   " "/w").status = .pending ∧
    executeBuildSaves (startBuildRecord "   " "/w") (.startFail "x") 1 2 =
      [{ startBuildRecord "   " "/w" with
           status := .running, startedAt := some 1 },
       { command := "   ", workingDir := "/w", status := .failed,
         output := "", error := some "Empty command", exitCode := some 1,
         processID := none, startedAt := some 1,
         completedAt := some 2 }] :=
  emptyCommand_accepted_then_failed "   " "/w" (.startFail "x") 1 2
    (by decide)

/-! ## C3 — spawn failure -/

/-- C3 counterexample: the claim says a job whose process fails to spawn
goes directly to failed "without ever being observed in (or set to) the
running state".  But `executeBuild` saves the running snapshot as its
very first action, before the spawn is attempted: on a start failure
the persisted status sequence is [running, failed], and running is in
it. -/
theorem spawnFailure_running_observed :
    ((executeBuildSaves (startBuildRecord "no-such-binary" "/w")
        (.startFail "executable file not found") 1 2).map
      (fun b => b.status)) = [.running, .failed] ∧
    BuildStatus.running ∈
      ((executeBuildSaves (startBuildRecord "no-such-binary" "/w")
          (.startFail "executable file not found") 1 2).map
        (fun b => b.status)) := by
  constructor
  · decide
  · decide

/-- C3 amended: for every job whose process fails to spawn, the job is
first marked running (saved when the execution goroutine begins, before
the spawn attempt) and then marked failed — never completed — with
error message "Failed to start command: ...", exit code 1, and a
completion timestamp. -/
theorem spawnFailure_marked_failed (b : Build) (msg : String) (t₁ t₂ : Nat)
    (h : goFields b.command ≠ []) :
    (executeBuildSaves b (.startFail msg) t₁ t₂).map (fun x => x.status) =
      [.running, .failed] ∧
    (executeBuildSaves b (.startFail msg) t₁ t₂).getLast? =
      some { b with
             status := .failed, startedAt := some t₁,
             completedAt := some t₂,
             error := some ("Failed to start command: " ++ msg),
             exitCode := some 1 } := by
  unfold executeBuildSaves
  cases hf : goFields b.command with
  | nil => exact absurd hf h
  | cons x xs => simp [failSave]

/-- Witness for the amended C3 at a concrete missing binary. -/
theorem spawnFailure_marked_failed_witness :
    (executeBuildSaves (startBuildRecord "no-such-binary" "/w")
        (.startFail "executable file not found") 1 2).map
      (fun x => x.status) = [.running, .failed] ∧
    (executeBuildSaves (startBuildRecord "no-such-binary" "/w")
        (.startFail "executable file not found") 1 2).getLast? =
      some { startBuildRecord "no-such-binary" "/w" with
             status := .failed, startedAt := some 1, completedAt := some 2,
             error := some
               ("Failed to start command: " ++ "executable file not found"),
             exitCode := some 1 } :=
  spawnFailure_marked_failed (startBuildRecord "no-such-binary" "/w")
    "executable file not found" 1 2 (by decide)

/-! ## C1 — terminal states are not stable -/

/-- C1: the claim says that once a job is terminal its status never
changes, and in particular a job marked cancelled by `CancelBuild` is
never re-marked failed.  The code violates this: `CancelBuild` saves
status cancelled, but the execution goroutine's finalization save
(after `cmd.Wait()` returns following the kill, hence with a non-nil
error) is computed from the goroutine's in-memory record alone and
unconditionally saves status failed over the cancelled row.  Here job 1
is cancelled (the database row reads cancelled, a terminal state), and
the subsequent finalization re-marks it failed. -/
theorem cancelled_build_remarked_failed :
    (cancelBuild demoRegistry 1 true 5).2 = .ok ∧
    ((cancelBuild demoRegistry 1 true 5).1.db 1).map (fun b => b.status) =
      some .cancelled ∧
    ((finalizeBuild (cancelBuild demoRegistry 1 true 5).1 1
        demoRunningBuild (some ((-1 : Int), "signal: killed")) "" 6).db 1).map
      (fun b => b.status) = some .failed := by
  refine ⟨rfl, rfl, rfl⟩

/-! ## C4 — cancel semantics and (non-)idempotence -/

/-- C4 counterexample: the claim says a second cancel on an
already-terminal job fails with NotRunning.  But `CancelBuild` does not
remove the live handle from `activeBuilds` (only the execution
goroutine does, after `cmd.Wait()` returns), so in the window before
the goroutine finalizes, a second cancel of the already-cancelled
(terminal) job finds the handle, kills again, and returns success a
second time instead of NotRunning. -/
theorem second_cancel_succeeds_again :
    ((cancelBuild demoRegistry 1 true 5).1.db 1).map (fun b => b.status) =
      some .cancelled ∧
    (cancelBuild (cancelBuild demoRegistry 1 true 5).1 1 true 6).2 =
      .ok ∧
    (cancelBuild (cancelBuild demoRegistry 1 true 5).1 1 true 6).2 ≠
      .errNotRunning := by
  refine ⟨rfl, rfl, by decide⟩

/-- C4 amended: cancel with no live handle fails with NotRunning;
cancel with a live handle kills the process, marks the job cancelled
with a completion timestamp and emits the cancelled log entry (but
leaves the handle registered); and a second cancel fails with
NotRunning once the execution goroutine has finalized the job and
removed the handle — though not in the window before that, as the
counterexample shows. -/
theorem cancelBuild_semantics (st : Registry) (id : Nat) (killOk : Bool)
    (t : Nat) :
    (st.active id = false →
      cancelBuild st id killOk t = (st, .errNotRunning)) ∧
    (∀ b, st.active id = true → killOk = true → st.db id = some b →
      (cancelBuild st id killOk t).2 = .ok ∧
      (cancelBuild st id killOk t).1.db id =
        some { b with status := .cancelled, completedAt := some t } ∧
      (cancelBuild st id killOk t).1.logs =
        st.logs ++ [(id, "warn", "Build cancelled by user")] ∧
      (cancelBuild st id killOk t).1.active = st.active) ∧
    (∀ bMem wait output t' killOk' t'',
      (cancelBuild (finalizeBuild st id bMem wait output t') id
        killOk' t'').2 = .errNotRunning) := by
  refine ⟨?_, ?_, ?_⟩
  · intro h
    simp [cancelBuild, h]
  · intro b h1 h2 h3
    simp [cancelBuild, h1, h2, h3]
  · intro bMem wait output t' killOk' t''
    simp [cancelBuild, finalizeBuild]

/-- Witness for the amended C4: job 2 has no handle (NotRunning); job 1
is live and its cancel succeeds. -/
theorem cancelBuild_semantics_witness :
    cancelBuild demoRegistry 2 true 5 = (demoRegistry, .errNotRunning) ∧
    (cancelBuild demoRegistry 1 true 5).2 = .ok :=
  ⟨(cancelBuild_semantics demoRegistry 2 true 5).1 (by decide),
   ((cancelBuild_semantics demoRegistry 1 true 5).2.1 demoRunningBuild
      (by decide) rfl (by decide)).1⟩

/-! ## C2 — path traversal in UnZipFile -/

/-- C2: the claim says `UnZipFile` rejects an archive entry resolving
outside the destination (returns an error) and never writes a file
outside the destination.  Evaluating both variants of the code at an
archive containing the single entry `../../etc/passwd` with existing
destination `/tmp/work`:
the `isPathSafe` variant accepts the entry — the raw string comparison
runs on the unresolved path `/tmp/work/../../etc/passwd`, which does
start with `/tmp/work/` — and creates the file there, which the
operating system resolves to `/etc/passwd`, outside the destination;
and in both variants the rejection branch returns the still-nil `err`,
so even the variant that blocks the write reports no error. -/
theorem unZipFile_traversal_eval :
    isPathSafe true "/tmp/work" "/tmp/work/../../etc/passwd" = true ∧
    unZipFileV2 true "/tmp/work" [⟨"../../etc/passwd", false⟩] =
      (["/tmp/work/../../etc/passwd"], none) ∧
    goPathClean "/tmp/work/../../etc/passwd" = "/etc/passwd" ∧
    strStartsWith "/tmp/work/" "/etc/passwd" = false ∧
    unZipFileV1 "/tmp/work" [⟨"../../etc/passwd", false⟩] = ([], none) := by
  refine ⟨by decide, by decide, by decide, by decide, by decide⟩

/-! ## C5 — the Claude CLI argument vector -/

/-- Options fixture for the C5 witness: a resumed plan-mode turn with a
tools-settings bundle. -/
def demoResumeOptions : ClaudeCLIOptions :=
  { sessionID := "S1", resume := true,
    toolsSettings := some { allowedTools := ["Bash"] },
    permissionMode := "plan" }

/-- C5: `buildClaudeCLIArgs` decomposes exactly into the blocks the
claim lists — resume flag (with the prior session id) first when
resuming; always `--output-format stream-json --verbose`; the MCP
config flag; a `--model` flag defaulting to "sonnet" exactly for
non-resumed turns; `--permission-mode` only for a non-default mode;
a tools block that is either the lone `--dangerously-skip-permissions`
flag (skip requested outside plan mode) or only explicit
allowed/disallowed tool pairs — mutually exclusive — with the fixed
minimal allow-list (Read, Task, exit_plan_mode, TodoRead, TodoWrite)
injected under plan mode when a tools-settings bundle is present; and
the literal user input appended last. -/
theorem buildClaudeCLIArgs_spec (c : String) (o : ClaudeCLIOptions)
    (hasMCP : Bool) (mcpPath : String) :
    buildClaudeCLIArgs c o hasMCP mcpPath =
      specResumeArgs o ++ specOutputArgs ++ specMcpArgs hasMCP mcpPath ++
      specModelArgs o ++ specPermissionArgs o ++ specToolsArgs o ++
      specPayloadArgs c ∧
    (o.resume = true → specModelArgs o = []) ∧
    (o.resume = false → specModelArgs o =
      ["--model", if o.model == "" then "sonnet" else o.model]) ∧
    (∀ s, o.toolsSettings = some s → s.skipPermissions = true →
      o.permissionMode ≠ "plan" →
      specToolsArgs o = ["--dangerously-skip-permissions"]) ∧
    (∀ s, o.toolsSettings = some s →
      (s.skipPermissions = false ∨ o.permissionMode = "plan") →
      specToolsArgs o = specToolListArgs o s) ∧
    (o.permissionMode = "plan" → ∀ s, specToolListArgs o s =
      toolPairArgs "--allowedTools" s.allowedTools ++
      toolPairArgs "--disallowedTools" s.disallowedTools ++
      toolPairArgs "--allowedTools" planModeTools) ∧
    (c ≠ "" →
      (buildClaudeCLIArgs c o hasMCP mcpPath).getLast? = some c) ∧
    (o.resume = true → o.sessionID ≠ "" → ∃ rest,
      buildClaudeCLIArgs c o hasMCP mcpPath =
        "--resume" :: o.sessionID :: rest) := by
  have hmain : buildClaudeCLIArgs c o hasMCP mcpPath =
      specResumeArgs o ++ specOutputArgs ++ specMcpArgs hasMCP mcpPath ++
      specModelArgs o ++ specPermissionArgs o ++ specToolsArgs o ++
      specPayloadArgs c := by
    unfold buildClaudeCLIArgs specResumeArgs specOutputArgs specMcpArgs
      specModelArgs specPermissionArgs specToolsArgs specToolListArgs
      specPayloadArgs
    cases hts : o.toolsSettings with
    | none =>
      cases h1 : (o.resume && o.sessionID != "") <;>
      cases hr : o.resume <;>
      cases h2 : (hasMCP && mcpPath != "") <;>
      cases h3 : (o.permissionMode != "" && o.permissionMode != "default") <;>
      cases h4 : (c != "") <;>
        simp [h1, hr, h2, h3, h4, List.append_assoc]
    | some s =>
      cases h1 : (o.resume && o.sessionID != "") <;>
      cases hr : o.resume <;>
      cases h2 : (hasMCP && mcpPath != "") <;>
      cases h3 : (o.permissionMode != "" && o.permissionMode != "default") <;>
      cases h5 : (s.skipPermissions && o.permissionMode != "plan") <;>
      cases h6 : (o.permissionMode == "plan") <;>
      cases h4 : (c != "") <;>
        simp [h1, hr, h2, h3, h4, h5, h6, foldl_toolPairArgs,
          List.append_assoc]
  have hlast : ∀ l : List String, (l ++ ["--print", "--", c]).getLast? =
      some c := by
    intro l
    rw [show ["--print", "--", c] = ["--print", "--"] ++ [c] from rfl,
      ← List.append_assoc]
    exact List.getLast?_concat _
  refine ⟨hmain, ?_, ?_, ?_, ?_, ?_, ?_, ?_⟩
  · intro h; simp [specModelArgs, h]
  · intro h; simp [specModelArgs, h]
  · intro s hs hskip hplan
    simp [specToolsArgs, hs, hskip, hplan]
  · intro s hs hd
    rcases hd with h | h <;> simp [specToolsArgs, hs, h]
  · intro h s
    simp [specToolListArgs, h]
  · intro hc
    rw [hmain]
    have hp : specPayloadArgs c = ["--print", "--", c] := by
      simp [specPayloadArgs, hc]
    rw [hp, show specResumeArgs o ++ specOutputArgs ++
      specMcpArgs hasMCP mcpPath ++ specModelArgs o ++
      specPermissionArgs o ++ specToolsArgs o ++ ["--print", "--", c] =
      (specResumeArgs o ++ specOutputArgs ++ specMcpArgs hasMCP mcpPath ++
       specModelArgs o ++ specPermissionArgs o ++ specToolsArgs o) ++
      ["--print", "--", c] from by simp [List.append_assoc]]
    exact hlast _
  · intro hr hsid
    have hres : specResumeArgs o = ["--resume", o.sessionID] := by
      simp [specResumeArgs, hr, hsid]
    refine ⟨specOutputArgs ++ specMcpArgs hasMCP mcpPath ++
      specModelArgs o ++ specPermissionArgs o ++ specToolsArgs o ++
      specPayloadArgs c, ?_⟩
    rw [hmain, hres]
    simp [List.append_assoc]

/-- Witness for C5 at the resumed plan-mode fixture with a non-empty
input. -/
theorem buildClaudeCLIArgs_spec_witness :
    (buildClaudeCLIArgs "fix it" demoResumeOptions true "/cfg.json" =
      specResumeArgs demoResumeOptions ++ specOutputArgs ++
      specMcpArgs true "/cfg.json" ++ specModelArgs demoResumeOptions ++
      specPermissionArgs demoResumeOptions ++
      specToolsArgs demoResumeOptions ++ specPayloadArgs "fix it") ∧
    (buildClaudeCLIArgs "fix it" demoResumeOptions true "/cfg.json").getLast?
      = some "fix it" ∧
    (∃ rest, buildClaudeCLIArgs "fix it" demoResumeOptions true "/cfg.json" =
      "--resume" :: "S1" :: rest) :=
  ⟨(buildClaudeCLIArgs_spec "fix it" demoResumeOptions true "/cfg.json").1,
   (buildClaudeCLIArgs_spec "fix it" demoResumeOptions true
      "/cfg.json").2.2.2.2.2.2.1 (by decide),
   (buildClaudeCLIArgs_spec "fix it" demoResumeOptions true
      "/cfg.json").2.2.2.2.2.2.2 (by decide) (by decide)⟩

/-! ## C6 — sync failure is non-fatal -/

/-- C6: a failure of post-run packing (`ZipFolder`) or upload
(`UploadFile`) is reported as a distinct `upload_error` event; the
persisted chat results are whatever they would have been on a
successful sync (the assistant message is saved before the sync is
attempted and the phase writes no job/build record at all), the
storage location's network path is left unchanged, and the terminal
`complete` event is still emitted. -/
theorem syncFailure_nonfatal (messages : List ChatMsg) (np : Option String)
    (accum composed : String) (zipOk uploadOk : Bool) :
    (postRunPhase messages np accum zipOk uploadOk composed).1 =
      (postRunPhase messages np accum true true composed).1 ∧
    (zipOk = false ∨ uploadOk = false →
      (∃ m, ChatEvent.uploadError m ∈
        (postRunPhase messages np accum zipOk uploadOk composed).2.2) ∧
      (postRunPhase messages np accum zipOk uploadOk composed).2.1 = np) ∧
    ChatEvent.complete ∈
      (postRunPhase messages np accum zipOk uploadOk composed).2.2 := by
  cases zipOk <;> cases uploadOk <;>
    simp [postRunPhase]

/-- Witness for C6: upload fails after a successful zip. -/
theorem syncFailure_nonfatal_witness :
    (postRunPhase [] none "hello" true false "b/k.zip").1 =
      (postRunPhase [] none "hello" true true "b/k.zip").1 ∧
    (∃ m, ChatEvent.uploadError m ∈
      (postRunPhase [] none "hello" true false "b/k.zip").2.2) ∧
    (postRunPhase [] none "hello" true false "b/k.zip").2.1 = none ∧
    ChatEvent.complete ∈
      (postRunPhase [] none "hello" true false "b/k.zip").2.2 := by
  have h := syncFailure_nonfatal [] none "hello" "b/k.zip" true false
  exact ⟨h.1, (h.2.1 (Or.inr rfl)).1, (h.2.1 (Or.inr rfl)).2, h.2.2⟩

/-! ## C7 — line classification in StreamClaudeChat -/

/-- C7 counterexample: the claim says every output-stream line that
does not parse as JSON is appended to the buffer with a trailing
newline and forwarded as a generic output event.  An empty line does
not parse as JSON, yet `StreamClaudeChat` skips it entirely
(`if l.text == "" { continue }`): no event is forwarded and the buffer
is unchanged — in particular no `claude_output` event is emitted. -/
theorem chat_empty_line_dropped :
    parseNone "" = none ∧
    chatProcessLine parseNone false "" { accum := "" } =
      ({ accum := "" }, [], []) ∧
    ¬ (ChatEvent.claudeOutput "" ∈
        (chatProcessLine parseNone false "" { accum := "" }).2.1) := by
  refine ⟨rfl, rfl, by decide⟩

/-- C7 amended: for every NON-empty line — empty lines from either
stream are skipped entirely, with no event and no buffer change — the
claimed classification holds: a stdout line that parses as a JSON
object has its "text" field (if any) merged into the accumulated
buffer and is forwarded as a `claude_response` event carrying the
parsed object; a stdout line that does not parse is appended to the
buffer with a trailing newline and forwarded as a `claude_output`
event; a stderr line is forwarded as a `claude_error` event and is
never parsed (the result does not depend on the parser at all). -/
theorem chatProcessLine_classification
    (parse parse' : String → Option JObj) (text : String)
    (st : ChatStream) :
    (text = "" → ∀ isErr,
      chatProcessLine parse isErr text st = (st, [], [])) ∧
    (text ≠ "" →
      chatProcessLine parse true text st =
        (st, [.claudeError text], []) ∧
      chatProcessLine parse true text st =
        chatProcessLine parse' true text st) ∧
    (text ≠ "" → ∀ payload, parse text = some payload →
      chatProcessLine parse false text st =
        ({ accum := st.accum ++ ((jGetStr payload "text").getD "") },
         [.claudeResponse payload], [])) ∧
    (text ≠ "" → parse text = none →
      chatProcessLine parse false text st =
        ({ accum := st.accum ++ text ++ "\n" },
         [.claudeOutput text], [])) := by
  refine ⟨?_, ?_, ?_, ?_⟩
  · intro h isErr
    simp [chatProcessLine, h]
  · intro h
    constructor <;> simp [chatProcessLine, h]
  · intro h payload hp
    simp [chatProcessLine, h, hp]
  · intro h hp
    simp [chatProcessLine, h, hp]

/-- Witness for the amended C7 at the non-empty stderr line "boom". -/
theorem chatProcessLine_classification_witness :
    chatProcessLine parseNone true "boom" { accum := "" } =
      ({ accum := "" }, [.claudeError "boom"], []) ∧
    chatProcessLine parseNone false "boom" { accum := "" } =
      ({ accum := "boom\n" }, [.claudeOutput "boom"], []) := by
  have h := chatProcessLine_classification parseNone parseNone "boom"
    { accum := "" }
  refine ⟨(h.2.1 (by decide)).1, ?_⟩
  have h4 := h.2.2.2 (by decide) rfl
  simpa using h4

/-! ## C8 — durable per-line logging -/

/-- C8 counterexample: the claim says every line read from either
stream is also durably persisted via the log sink.  In
`StreamClaudeChat` a stderr line such as "boom" is forwarded live as a
`claude_error` event but produces zero durable log writes, so losing
the live stream loses the line. -/
theorem chat_stderr_line_not_persisted :
    (chatProcessLine parseNone true "boom" { accum := "" }).2.1 =
      [.claudeError "boom"] ∧
    (chatProcessLine parseNone true "boom" { accum := "" }).2.2 = [] := by
  refine ⟨rfl, rfl⟩

/-- C8 amended: in the BuildService execution path
(`executeClaudeCLI`), every stdout line and every stderr line produces
at least one durable `BuildLog` record via `logBuildEvent`; in
`ChatHandler.StreamClaudeChat`, by contrast, no line — from either
stream — produces any durable log write (lines are only forwarded as
SSE events and accumulated in memory). -/
theorem line_logging_split (parse : String → Option JObj)
    (line text : String) (isErr : Bool) (st : ChatStream) :
    claudeStdoutLineLogs parse line ≠ [] ∧
    claudeStderrLineLogs line ≠ [] ∧
    (chatProcessLine parse isErr text st).2.2 = [] := by
  refine ⟨?_, ?_, ?_⟩
  · unfold claudeStdoutLineLogs
    cases parse line with
    | none => simp
    | some r =>
      cases jGetStr r "session_id" <;> simp
  · simp [claudeStderrLineLogs]
  · unfold chatProcessLine
    split
    · rfl
    · split
      · rfl
      · cases parse text <;> simp

end Borderless
